import Mathlib

/-!
# Verification of the forecastapp forecasting engine

Shallow embedding of the core of the repository:

* `src/backend/computeBaseline.js` — the Monte Carlo simulator (`handler`,
  `generateHistogram`, `generateBurnDown`, `calculateThroughputStats`);
* `src/backend/fetchAndAggregate.js` — the throughput aggregator
  (`getWeekStart`, `computeThroughput`) and the estimation-accuracy analyzer
  (`computeEstimationAccuracy`, `detectEstimationBias`);
* `computeConfidence.js` — the confidence scorer (`determineRecommendation`,
  `calculateOverallConfidence`).

JavaScript numbers are modelled as rationals (`ℚ`); elapsed-week counters and
list indices as naturals; wall-clock readings (`Date.now()`) as explicit `ℤ`
parameters.  The `seedrandom` PRNG is an external dependency of the repository,
so the simulator takes the seeded stream of draws as an explicit argument
(a function from draw position to an arbitrary natural, reduced modulo the
sample-population size exactly where the source computes
`Math.floor(rng() * throughputData.length)`).
-/

-- `Rat.add` and friends are `@[irreducible]` in Batteries; make them
-- kernel-reducible so that concrete runs of the embedded code can be
-- evaluated by `decide`.
set_option allowUnsafeReducibility true in
attribute [semireducible] Rat.add Rat.sub Rat.mul Rat.inv Rat.ofScientific

/-- JavaScript `Math.round`: round half toward positive infinity. -/
def jround (q : ℚ) : ℤ := (q + 1/2).floor

/-- JavaScript `Math.round(x * 10) / 10` — round to one decimal place. -/
def round1 (q : ℚ) : ℚ := (jround (q * 10) : ℚ) / 10

namespace ComputeBaseline

/-- One weekly throughput sample as consumed by the simulator
(`points_completed` / `issues_completed` in `computeBaseline.js`). -/
structure Week where
  points_completed : ℚ
  issues_completed : ℚ
deriving DecidableEq

/-- The throughput value drawn from a weekly sample:
`useIssueCount ? (weekData.issues_completed || … || 0) : (weekData.points_completed || … || 0)`.
The `||` fallback chains collapse because the embedding stores one canonical
field per quantity (`x || 0` is the identity on numbers). -/
def weekValue (useIssueCount : Bool) (w : Week) : ℚ :=
  if useIssueCount then w.issues_completed else w.points_completed

/-- Constant `maxWeeks = 104` — the per-trial week cap. -/
def maxWeeks : ℕ := 104

/-- The inner `while (remainingWork > 0 && weeks < maxWeeks)` loop of one
Monte Carlo trial.  `budget` is `maxWeeks - weeks`; `pos` is the number of
draws consumed from the stream so far.  Returns the final `weeks` counter and
the stream position after the trial. -/
def trialLoop (stream : ℕ → ℕ) (tData : List Week) (useIssueCount : Bool) :
    ℕ → ℕ → ℚ → ℕ → ℕ × ℕ
  | 0, pos, _, weeks => (weeks, pos)
  | budget + 1, pos, remainingWork, weeks =>
    if 0 < remainingWork then
      let randomIndex := stream pos % tData.length
      let weekThroughput := weekValue useIssueCount (tData.getD randomIndex ⟨0, 0⟩)
      trialLoop stream tData useIssueCount budget (pos + 1)
        (remainingWork - weekThroughput) (weeks + 1)
    else (weeks, pos)

/-- The outer `for (let i = 0; i < samples; i++)` loop: runs `n` trials,
threading the single PRNG stream position through consecutive trials, and
collects each trial's `weeks` into `completionWeeks`. -/
def runTrials (stream : ℕ → ℕ) (tData : List Week) (useIssueCount : Bool)
    (workToComplete : ℚ) : ℕ → ℕ → List ℕ
  | 0, _ => []
  | n + 1, pos =>
    let r := trialLoop stream tData useIssueCount maxWeeks pos workToComplete 0
    r.1 :: runTrials stream tData useIssueCount workToComplete n r.2

/-- Source `completionWeeks.sort((a, b) => a - b)` — ascending numeric sort. -/
def sortWeeks (l : List ℕ) : List ℕ := l.insertionSort (fun a b => a ≤ b)

/-- The three percentile reads
`completionWeeks[Math.floor(samples * q)]` for q ∈ {0.50, 0.80, 0.95},
packaged with the trial loop.  Returns `(p50, p80, p95)`. -/
def simPercentiles (samples : ℕ) (stream : ℕ → ℕ) (tData : List Week)
    (useIssueCount : Bool) (workToComplete : ℚ) : ℕ × ℕ × ℕ :=
  let completionWeeks := runTrials stream tData useIssueCount workToComplete samples 0
  let sorted := sortWeeks completionWeeks
  (sorted.getD (samples * 50 / 100) 0,
   sorted.getD (samples * 80 / 100) 0,
   sorted.getD (samples * 95 / 100) 0)

/-- One bucket of `generateHistogram`. -/
structure HistEntry where
  weeks : ℕ
  count : ℕ
  probability : ℚ
deriving DecidableEq

/-- Function `generateHistogram`: bucket identical elapsed-week values (the values are
already integers, so `Math.floor` is the identity), one entry per distinct
value with its count and `count / completionWeeks.length`, sorted by week
ascending. -/
def generateHistogram (completionWeeks : List ℕ) : List HistEntry :=
  (sortWeeks completionWeeks).dedup.map fun w =>
    ⟨w, completionWeeks.count w, (completionWeeks.count w : ℚ) / completionWeeks.length⟩

/-- One point of a burn-down projection. -/
structure BurnPoint where
  week : ℕ
  remaining : ℚ
deriving DecidableEq

/-- The `for (let week = 0; week <= pWeeks && rem > 0; week++)` push-and-subtract
loop of `generateBurnDown`; `fuel` starts at `pWeeks + 1`. -/
def burnLoop (rate : ℚ) : ℕ → ℕ → ℚ → List BurnPoint
  | 0, _, _ => []
  | fuel + 1, week, rem =>
    if 0 < rem then ⟨week, max 0 rem⟩ :: burnLoop rate fuel (week + 1) (rem - rate)
    else []

/-- Result of `generateBurnDown`. -/
structure BurnDown where
  p50 : List BurnPoint
  p80 : List BurnPoint
deriving DecidableEq

/-- Function `generateBurnDown(totalWork, throughputData, p50Weeks, p80Weeks, useIssueCount)`:
projects remaining work using the median throughput for the P50 line and the
20th-percentile throughput for the P80 line (each with a `|| fallback` on a
zero/missing value). -/
def generateBurnDown (totalWork : ℚ) (tData : List Week) (p50Weeks p80Weeks : ℕ)
    (useIssueCount : Bool) : BurnDown :=
  let throughputValues := (tData.map (weekValue useIssueCount)).insertionSort (fun a b => a ≤ b)
  let med := throughputValues.getD (throughputValues.length / 2) 0
  let medianThroughput := if med = 0 then 1 else med
  let p20v := throughputValues.getD (throughputValues.length * 20 / 100) 0
  let p20Throughput := if p20v = 0 then medianThroughput * (1/2) else p20v
  ⟨burnLoop medianThroughput (p50Weeks + 1) 0 totalWork,
   burnLoop p20Throughput (p80Weeks + 1) 0 totalWork⟩

/-- Result of `calculateThroughputStats`.  The zero-sample branch of the
source returns an object without the `weeks` property, hence the `Option`. -/
structure ThroughputStats where
  median : ℚ
  mean : ℚ
  p20 : ℚ
  p80 : ℚ
  minV : ℚ
  maxV : ℚ
  weeks : Option ℕ
deriving DecidableEq

/-- Function `calculateThroughputStats(throughputData, useIssueCount)`: order statistics
of the positive throughput values. -/
def calculateThroughputStats (tData : List Week) (useIssueCount : Bool) : ThroughputStats :=
  let values0 := (tData.map (weekValue useIssueCount)).filter (fun v => 0 < v)
  if values0.length = 0 then ⟨0, 0, 0, 0, 0, 0, none⟩
  else
    let values := values0.insertionSort (fun a b => a ≤ b)
    ⟨values.getD (values.length * 50 / 100) 0,
     values.sum / values.length,
     values.getD (values.length * 20 / 100) 0,
     values.getD (values.length * 80 / 100) 0,
     values.getD 0 0,
     values.getD (values.length - 1) 0,
     some values.length⟩

/-- The `remaining` payload field (property-name variants collapsed to the
canonical snake_case spellings resolved by the `??` chains). -/
structure Remaining where
  total_points : ℚ
  issue_count : ℚ
  unestimated_count : ℚ
deriving DecidableEq

/-- The request payload of `computeBaseline.handler`, with `throughput`
already in the plain-array format (the three accepted input shapes are all
normalised to this one by lines 21–39 of the source). -/
structure Payload where
  snapshotId : String
  throughput : List Week
  remaining : Remaining

/-- The success-path return object of `computeBaseline.handler`. -/
structure ForecastResult where
  runId : String
  snapshotId : String
  scenarioId : String
  computedAt : ℤ
  p50 : ℕ
  p80 : ℕ
  p95 : ℕ
  remainingWork : ℚ
  remainingIssues : ℚ
  unestimatedIssues : ℚ
  useIssueCount : Bool
  weeksAnalyzed : ℕ
  throughputStats : ThroughputStats
  distribution : List HistEntry
  burnDown : BurnDown
  executionTime : ℤ

/-- The three return shapes of `computeBaseline.handler`: the caught-error
object (`success: false`), the zero-remaining-work short-circuit, and the full
forecast. -/
inductive HandlerResult
  | failure (error : String)
  | complete (message : String) (p50 p80 p95 : ℕ)
  | forecast (r : ForecastResult)

/-- Function `computeBaseline.handler`.  `seedrandom` is passed in as the seed-indexed
family of draw streams; `t0` is the `Date.now()` reading at entry and `t1`
the reading(s) taken while building the result object. -/
def handler (seedrandom : String → ℕ → ℕ) (p : Payload) (t0 t1 : ℤ) : HandlerResult :=
  let tData := p.throughput
  if tData.length = 0 then
    .failure "No historical throughput data available"
  else if p.remaining.total_points = 0 ∧ p.remaining.issue_count = 0 then
    .complete "No remaining work - project is complete!" 0 0 0
  else
    let workToComplete :=
      if 0 < p.remaining.total_points then p.remaining.total_points
      else p.remaining.issue_count
    let useIssueCount := p.remaining.total_points = 0
    let seed := if p.snapshotId = "" then "default" else p.snapshotId
    let stream := seedrandom seed
    let samples := 10000
    let completionWeeks := runTrials stream tData useIssueCount workToComplete samples 0
    let sorted := sortWeeks completionWeeks
    let p50 := sorted.getD (samples * 50 / 100) 0
    let p80 := sorted.getD (samples * 80 / 100) 0
    .forecast
      { runId := "run_" ++ toString t1
        snapshotId := p.snapshotId
        scenarioId := "baseline"
        computedAt := t1
        p50 := p50
        p80 := p80
        p95 := sorted.getD (samples * 95 / 100) 0
        remainingWork := workToComplete
        remainingIssues := p.remaining.issue_count
        unestimatedIssues := p.remaining.unestimated_count
        useIssueCount := useIssueCount
        weeksAnalyzed := tData.length
        throughputStats := calculateThroughputStats tData useIssueCount
        distribution := generateHistogram completionWeeks
        burnDown := generateBurnDown workToComplete tData p50 p80 useIssueCount
        executionTime := t1 - t0 }

/-- Modelled from the spec: the `seedrandom` dependency (an external library,
not part of this repository) is required only to be "an explicit seeded
pseudorandom generator, not ambient global randomness"; it is modelled as a
linear-congruential stream of naturals keyed by a hash of the seed string. -/
def mkStream (seed : String) : ℕ → ℕ :=
  let h := seed.data.foldl (fun a c => (a * 31 + c.toNat) % 4294967296) 7
  fun n => (fun x => (x * 1103515245 + 12345) % 2147483648)^[n + 1] h

end ComputeBaseline

namespace ComputeBaseline

/-! ### Basic lemmas about the simulator loops -/

theorem trialLoop_of_nonpos (stream : ℕ → ℕ) (tData : List Week) (u : Bool)
    (b pos : ℕ) (w : ℚ) (weeks : ℕ) (h : ¬0 < w) :
    trialLoop stream tData u b pos w weeks = (weeks, pos) := by
  cases b <;> simp [trialLoop, h]

theorem runTrials_of_nonpos (stream : ℕ → ℕ) (tData : List Week) (u : Bool)
    (w : ℚ) (h : ¬0 < w) : ∀ n pos,
    runTrials stream tData u w n pos = List.replicate n 0 := by
  intro n
  induction n with
  | zero => intro pos; simp [runTrials]
  | succ k ih =>
    intro pos
    simp [runTrials, trialLoop_of_nonpos _ _ _ _ _ _ _ h, ih, List.replicate_succ]

theorem orderedInsert_replicate_self (a k : ℕ) :
    (List.replicate k a).orderedInsert (fun x y => x ≤ y) a = List.replicate (k + 1) a := by
  cases k <;> simp [List.orderedInsert, List.replicate_succ]

theorem sortWeeks_replicate (n : ℕ) :
    sortWeeks (List.replicate n 0) = List.replicate n 0 := by
  induction n with
  | zero => simp [sortWeeks, List.insertionSort]
  | succ k ih =>
    have h := orderedInsert_replicate_self 0 k
    simp only [sortWeeks, List.replicate_succ, List.insertionSort] at ih ⊢
    rw [ih, h, List.replicate_succ]

theorem getD_replicate_of_lt (n i : ℕ) (a d : ℕ) (h : i < n) :
    (List.replicate n a).getD i d = a := by
  have hlen : i < (List.replicate n a).length := by simpa using h
  rw [List.getD_eq_getElem _ _ hlen, List.getElem_replicate]

theorem length_runTrials (stream : ℕ → ℕ) (tData : List Week) (u : Bool) (w : ℚ) :
    ∀ n pos, (runTrials stream tData u w n pos).length = n := by
  intro n
  induction n with
  | zero => intro pos; simp [runTrials]
  | succ k ih => intro pos; simp [runTrials, ih]

theorem sortWeeks_length (l : List ℕ) : (sortWeeks l).length = l.length :=
  (List.perm_insertionSort _ l).length_eq

theorem sortWeeks_sorted (l : List ℕ) : (sortWeeks l).Sorted (fun a b => a ≤ b) :=
  List.sorted_insertionSort _ l

theorem sorted_getD_mono (l : List ℕ) (hl : l.Sorted (fun a b => a ≤ b))
    (i j : ℕ) (hij : i ≤ j) (hj : j < l.length) : l.getD i 0 ≤ l.getD j 0 := by
  have hi : i < l.length := lt_of_le_of_lt hij hj
  rw [List.getD_eq_getElem l 0 hi, List.getD_eq_getElem l 0 hj]
  rcases eq_or_lt_of_le hij with rfl | hlt
  · exact le_refl _
  · have := List.pairwise_iff_get.1 hl ⟨i, hi⟩ ⟨j, hj⟩ hlt
    simpa using this

theorem trialLoop_weeks_ge (stream : ℕ → ℕ) (tData : List Week) (u : Bool) :
    ∀ (b pos : ℕ) (w : ℚ) (weeks : ℕ),
    weeks ≤ (trialLoop stream tData u b pos w weeks).1 := by
  intro b
  induction b with
  | zero => intro pos w weeks; simp [trialLoop]
  | succ k ih =>
    intro pos w weeks
    by_cases h : 0 < w
    · simp only [trialLoop, if_pos h]
      exact le_trans (Nat.le_succ weeks) (ih _ _ _)
    · simp [trialLoop, h]

/-! ### Projections of the handler result (for stating observations about
single fields without evaluating the whole result object) -/

/-- The `success` flag of the returned object. -/
def resultSuccess : HandlerResult → Bool
  | .failure _ => false
  | _ => true

/-- The `runId` field (present only on the full forecast object). -/
def resultRunId : HandlerResult → Option String
  | .forecast r => some r.runId
  | _ => none

/-- The `p50` field of either success shape. -/
def resultP50 : HandlerResult → Option ℕ
  | .failure _ => none
  | .complete _ a _ _ => some a
  | .forecast r => some r.p50

/-- The `remainingWork` field of the forecast object. -/
def resultRemainingWork : HandlerResult → Option ℚ
  | .forecast r => some r.remainingWork
  | _ => none

/-- Erase the three wall-clock-derived fields (`runId`, `computedAt`,
`executionTime`) of a forecast result. -/
def scrubClock : HandlerResult → HandlerResult
  | .forecast r => .forecast { r with runId := "", computedAt := 0, executionTime := 0 }
  | x => x

end ComputeBaseline

namespace ComputeBaseline

/-- A baseline payload with one throughput sample and remaining work, used to
exhibit wall-clock-dependent fields. -/
def payloadBasic : Payload := ⟨"snap", [⟨10, 1⟩], ⟨5, 2, 0⟩⟩

/-- Payload with empty throughput samples and `remainingWork = 10`. -/
def payloadEmptySamples : Payload := ⟨"snap", [], ⟨10, 3, 0⟩⟩

/-- Payload with empty throughput samples and zero remaining work. -/
def payloadEmptyZero : Payload := ⟨"snap", [], ⟨0, 0, 0⟩⟩

/-- Payload with negative remaining points and zero issue count. -/
def payloadNegativePoints : Payload := ⟨"snap", [⟨3, 1⟩], ⟨-5, 0, 0⟩⟩

/-- C1 (counterexample): two invocations of the handler on the identical
payload (hence identical seed and draw stream) but at different wall-clock
instants return objects whose `runId` fields differ (`run_0` vs `run_1`), so
the full returned result objects are not identical. -/
theorem handler_not_bytewise_deterministic :
    resultRunId (handler mkStream payloadBasic 0 0) = some "run_0" ∧
    resultRunId (handler mkStream payloadBasic 0 1) = some "run_1" ∧
    handler mkStream payloadBasic 0 0 ≠ handler mkStream payloadBasic 0 1 := by
  refine ⟨rfl, rfl, fun h => ?_⟩
  have h2 := congrArg resultRunId h
  rw [show resultRunId (handler mkStream payloadBasic 0 0) = some "run_0" from rfl,
      show resultRunId (handler mkStream payloadBasic 0 1) = some "run_1" from rfl] at h2
  exact absurd (Option.some.inj h2) (by decide)

/-- C1 (amended): for a fixed payload (remaining workload, throughput samples,
seed, and the fixed sample count 10000) the handler is deterministic in every
field except the three wall-clock-derived bookkeeping fields `runId`,
`computedAt` and `executionTime`: erasing those three fields, two runs at any
two pairs of wall-clock instants return identical results — in particular
identical p50/p80/p95, histogram (including its ordering), burn-down and
throughput statistics. -/
theorem handler_deterministic_modulo_clock (sr : String → ℕ → ℕ) (p : Payload)
    (t0 t1 t0' t1' : ℤ) :
    scrubClock (handler sr p t0 t1) = scrubClock (handler sr p t0' t1') := by
  unfold handler
  by_cases h1 : p.throughput.length = 0
  · simp [h1, scrubClock]
  · by_cases h2 : p.remaining.total_points = 0 ∧ p.remaining.issue_count = 0
    · simp [h1, h2, scrubClock]
    · simp [h1, h2, scrubClock]

/-- C2: on an empty throughput sample sequence the handler returns the
structured failure object (`success: false` with the insufficient-data error
message) for every remaining workload, and the result does not depend on the
PRNG at all (any two stream families give the same result), so no random draw
is performed and no fault escapes. -/
theorem handler_empty_samples_insufficient (sr sr' : String → ℕ → ℕ) (p : Payload)
    (t0 t1 t0' t1' : ℤ) (h : p.throughput = []) :
    handler sr p t0 t1 = .failure "No historical throughput data available" ∧
    handler sr p t0 t1 = handler sr' p t0' t1' := by
  constructor <;> simp [handler, h]

/-- Witness for C2 at the spec's scenario (empty samples, remaining work 10). -/
theorem handler_empty_samples_insufficient_witness :
    handler mkStream payloadEmptySamples 0 0 =
      .failure "No historical throughput data available" ∧
    handler mkStream payloadEmptySamples 0 0 = handler (fun _ _ => 3) payloadEmptySamples 1 2 :=
  handler_empty_samples_insufficient mkStream (fun _ _ => 3) payloadEmptySamples 0 0 1 2 rfl

/-- C3 (counterexample): with an **empty** sample sequence and zero remaining
work the handler does not short-circuit to the zero-week result — the
empty-samples check runs first, so it returns the insufficient-data failure,
refuting the claim's "for every throughput sample sequence". -/
theorem handler_zero_work_empty_counterexample :
    handler mkStream payloadEmptyZero 0 0 =
      .failure "No historical throughput data available" ∧
    handler mkStream payloadEmptyZero 0 0 ≠
      .complete "No remaining work - project is complete!" 0 0 0 := by
  constructor
  · rfl
  · intro h
    rw [show handler mkStream payloadEmptyZero 0 0 =
        .failure "No historical throughput data available" from rfl] at h
    exact HandlerResult.noConfusion h

/-- C3 (amended): for every **non-empty** sample sequence, when both remaining
points and remaining issue count are zero the handler short-circuits to the
trivial result with `p50 = p80 = p95 = 0`, independently of the PRNG (any two
stream families agree), i.e. without consuming a single random draw. -/
theorem handler_zero_work_short_circuit (sr sr' : String → ℕ → ℕ) (p : Payload)
    (t0 t1 t0' t1' : ℤ) (h1 : p.throughput ≠ [])
    (h2 : p.remaining.total_points = 0) (h3 : p.remaining.issue_count = 0) :
    handler sr p t0 t1 = .complete "No remaining work - project is complete!" 0 0 0 ∧
    handler sr p t0 t1 = handler sr' p t0' t1' := by
  have hlen : ¬p.throughput.length = 0 := by
    simpa [List.length_eq_zero] using h1
  constructor <;> simp [handler, hlen, h2, h3]

/-- Witness for C3 (amended) on a concrete non-empty sample list. -/
theorem handler_zero_work_short_circuit_witness :
    handler mkStream ⟨"snap", [⟨4, 2⟩], ⟨0, 0, 0⟩⟩ 0 0 =
      .complete "No remaining work - project is complete!" 0 0 0 ∧
    handler mkStream ⟨"snap", [⟨4, 2⟩], ⟨0, 0, 0⟩⟩ 0 0 =
      handler (fun _ _ => 3) ⟨"snap", [⟨4, 2⟩], ⟨0, 0, 0⟩⟩ 1 2 :=
  handler_zero_work_short_circuit mkStream (fun _ _ => 3) ⟨"snap", [⟨4, 2⟩], ⟨0, 0, 0⟩⟩
    0 0 1 2 (by decide) rfl rfl

end ComputeBaseline

namespace ComputeBaseline

/-- C9 (counterexample): a request with negative remaining points (−5) and
zero issue count is not rejected: the handler reports success, silently
substitutes the issue count (0) for the workload, and returns a zero-week
forecast (`p50 = 0`) instead of any `InvalidInput` failure. -/
theorem handler_negative_points_accepted :
    resultSuccess (handler mkStream payloadNegativePoints 0 0) = true ∧
    resultRemainingWork (handler mkStream payloadNegativePoints 0 0) = some 0 ∧
    resultP50 (handler mkStream payloadNegativePoints 0 0) = some 0 := by
  refine ⟨rfl, rfl, ?_⟩
  have hw : (if (0 : ℚ) < payloadNegativePoints.remaining.total_points
      then payloadNegativePoints.remaining.total_points
      else payloadNegativePoints.remaining.issue_count) = 0 := by
    norm_num [payloadNegativePoints]
  have hcond : ¬(payloadNegativePoints.remaining.total_points = 0 ∧
      payloadNegativePoints.remaining.issue_count = 0) := by
    norm_num [payloadNegativePoints]
  simp only [handler, resultP50, payloadNegativePoints]
  norm_num
  rw [runTrials_of_nonpos _ _ _ _ (by norm_num), sortWeeks_replicate]
  rw [List.getElem?_replicate, if_pos (by norm_num)]
  rfl

/-- C9 (amended): the handler performs no `InvalidInput` boundary validation:
for any payload with non-empty samples and strictly negative remaining points,
it proceeds with the simulation, silently substituting the issue count as the
workload (the returned `remainingWork` equals `issue_count`, not the supplied
negative points value), and reports success.  (The sample count is the fixed
constant 10000, so a non-positive sample count cannot occur.) -/
theorem handler_negative_points_not_rejected (sr : String → ℕ → ℕ) (p : Payload)
    (t0 t1 : ℤ) (h1 : p.throughput ≠ []) (h2 : p.remaining.total_points < 0) :
    resultSuccess (handler sr p t0 t1) = true ∧
    resultRemainingWork (handler sr p t0 t1) = some p.remaining.issue_count := by
  have hlen : ¬p.throughput.length = 0 := by
    simpa [List.length_eq_zero] using h1
  have hne : ¬(p.remaining.total_points = 0 ∧ p.remaining.issue_count = 0) := by
    intro hc
    rw [hc.1] at h2
    exact absurd h2 (by norm_num)
  have hnpos : ¬0 < p.remaining.total_points := by linarith
  constructor <;> simp [handler, hlen, hne, hnpos, resultSuccess, resultRemainingWork]

/-- Witness for C9 (amended) at the concrete negative-points payload. -/
theorem handler_negative_points_not_rejected_witness :
    resultSuccess (handler mkStream payloadNegativePoints 1 2) = true ∧
    resultRemainingWork (handler mkStream payloadNegativePoints 1 2) =
      some payloadNegativePoints.remaining.issue_count :=
  handler_negative_points_not_rejected mkStream payloadNegativePoints 1 2
    (by decide) (by norm_num [payloadNegativePoints])

end ComputeBaseline

namespace ComputeBaseline

/-- Two-valued (non-degenerate) throughput population used for percentile
observations. -/
def samplesTwoValued : List Week := [⟨10, 0⟩, ⟨11, 0⟩]

/-- C4 (counterexample): a valid run (non-empty samples, positive workload)
over the non-degenerate two-valued population {10, 11} with workload 5
finishes every trial in exactly one week, so P50 = P80 = P95 even though the
throughput distribution is not a single-value distribution. -/
theorem percentile_equality_nondegenerate :
    (simPercentiles 4 (fun n => n) samplesTwoValued false 5).1 =
      (simPercentiles 4 (fun n => n) samplesTwoValued false 5).2.2 ∧
    (samplesTwoValued.map (weekValue false)).dedup.length = 2 := by
  constructor <;> decide

/-- C4 (amended): for every run with at least one trial the three percentile
reads of the sorted elapsed-week multiset satisfy P50 ≤ P80 ≤ P95; equality
can also occur for non-degenerate throughput distributions. -/
theorem percentile_ordering (samples : ℕ) (stream : ℕ → ℕ) (tData : List Week)
    (useIssueCount : Bool) (w : ℚ) (hn : 1 ≤ samples) (hd : tData ≠ []) (hw : 0 < w) :
    (simPercentiles samples stream tData useIssueCount w).1 ≤
      (simPercentiles samples stream tData useIssueCount w).2.1 ∧
    (simPercentiles samples stream tData useIssueCount w).2.1 ≤
      (simPercentiles samples stream tData useIssueCount w).2.2 := by
  have hlen : (sortWeeks (runTrials stream tData useIssueCount w samples 0)).length
      = samples := by
    rw [sortWeeks_length, length_runTrials]
  have hsorted := sortWeeks_sorted (runTrials stream tData useIssueCount w samples 0)
  have h95 : samples * 95 / 100 <
      (sortWeeks (runTrials stream tData useIssueCount w samples 0)).length := by
    rw [hlen]; omega
  have h80 : samples * 80 / 100 <
      (sortWeeks (runTrials stream tData useIssueCount w samples 0)).length := by
    rw [hlen]; omega
  constructor
  · exact sorted_getD_mono _ hsorted _ _ (by omega) h80
  · exact sorted_getD_mono _ hsorted _ _ (by omega) h95

/-- Witness for C4 (amended) at a concrete one-trial run. -/
theorem percentile_ordering_witness :
    (simPercentiles 1 (fun n => n) samplesTwoValued false 5).1 ≤
      (simPercentiles 1 (fun n => n) samplesTwoValued false 5).2.1 ∧
    (simPercentiles 1 (fun n => n) samplesTwoValued false 5).2.1 ≤
      (simPercentiles 1 (fun n => n) samplesTwoValued false 5).2.2 :=
  percentile_ordering 1 (fun n => n) samplesTwoValued false 5 (by decide)
    (by decide) (by norm_num)

/-- The draw stream and population of the percentile-monotonicity
counterexample: draws [0, 0, 0, 1, 1, 0, 0, …] over values {2, 9}. -/
def streamShift : ℕ → ℕ := fun n => [0, 0, 0, 1, 1].getD n 0

/-- The two-valued population {2, 9} of the monotonicity counterexample. -/
def samplesShift : List Week := [⟨2, 0⟩, ⟨9, 0⟩]

/-- C5 (counterexample): with samples {2, 9}, the fixed draw stream
[0,0,0,1,1,0,…], three trials and the same seed, raising the remaining
workload from 4 to 5 makes the first trial one week longer, which shifts the
later trials onto luckier draws: P50 *decreases* from 2 to 1. -/
theorem percentile_not_monotone :
    (simPercentiles 3 streamShift samplesShift false 4).1 = 2 ∧
    (simPercentiles 3 streamShift samplesShift false 5).1 = 1 ∧
    (simPercentiles 3 streamShift samplesShift false 5).1 <
      (simPercentiles 3 streamShift samplesShift false 4).1 := by
  refine ⟨by decide, by decide, by decide⟩

/-- C5 (amended): a single trial, reading the same draws from the same
stream position, never finishes in fewer weeks when the remaining workload
increases (the percentiles themselves are not monotone, because with the
single sequentially-consumed stream a longer earlier trial realigns the draws
of all later trials — see the counterexample). -/
theorem trialLoop_weeks_monotone (stream : ℕ → ℕ) (tData : List Week) (u : Bool) :
    ∀ (b pos : ℕ) (w1 w2 : ℚ) (weeks : ℕ), w1 ≤ w2 →
    (trialLoop stream tData u b pos w1 weeks).1 ≤
      (trialLoop stream tData u b pos w2 weeks).1 := by
  intro b
  induction b with
  | zero => intro pos w1 w2 weeks _; simp [trialLoop]
  | succ k ih =>
    intro pos w1 w2 weeks h
    by_cases h1 : 0 < w1
    · have h2 : 0 < w2 := lt_of_lt_of_le h1 h
      simp only [trialLoop, if_pos h1, if_pos h2]
      exact ih _ _ _ _ (by linarith)
    · by_cases h2 : 0 < w2
      · simp only [trialLoop, if_neg h1, if_pos h2]
        exact le_trans (Nat.le_succ weeks) (trialLoop_weeks_ge stream tData u _ _ _ _)
      · simp [trialLoop, h1, h2]

/-- Witness for C5 (amended): one trial with workload 4 vs 5 from position 0. -/
theorem trialLoop_weeks_monotone_witness :
    (trialLoop streamShift samplesShift false maxWeeks 0 4 0).1 ≤
      (trialLoop streamShift samplesShift false maxWeeks 0 5 0).1 :=
  trialLoop_weeks_monotone streamShift samplesShift false maxWeeks 0 4 5 0 (by norm_num)

end ComputeBaseline

namespace FetchAndAggregate

/-- JavaScript `Date.prototype.getDay` for a date given as a day number
(days since the Unix epoch, which fell on a Thursday): 0 = Sunday … 6 =
Saturday. -/
def getDay (n : ℤ) : ℤ := (n + 4) % 7

/-- Function `getWeekStart` of `fetchAndAggregate.js`:
`diff = d.getDate() - day + (day === 0 ? -6 : 1)` followed by `setDate(diff)`,
i.e. move the date back to the Monday of its week (dates modelled as day
numbers, so the month-rollover handling of `setDate` is plain subtraction). -/
def getWeekStart (n : ℤ) : ℤ := n - getDay n + (if getDay n = 0 then -6 else 1)

/-- An issue as consumed by `computeThroughput`: its status category, its
resolution date (day number; `none` models a null `resolutiondate`) and its
story points (`none` models null `customfield_10016`).  Timestamps are
modelled at day granularity. -/
structure AggIssue where
  statusCategory : String
  resolved : Option ℤ
  storyPoints : Option ℚ

/-- One aggregated week (`{ weekStart, issuesCompleted, pointsCompleted }`).
The source keys the map by the ISO `YYYY-MM-DD` string of the week start;
the day number is kept instead, with the same ordering. -/
structure WeekAgg where
  weekStart : ℤ
  issuesCompleted : ℚ
  pointsCompleted : ℚ
deriving DecidableEq

/-- The `weeklyMap` update for one resolved issue: JS `Map` semantics —
update in place if the key exists, otherwise append in insertion order.  A
fresh entry starts at `{issuesCompleted: 0, pointsCompleted: 0}` and is
immediately incremented, hence `⟨wk, 1, pts⟩`. -/
def bumpWeek (wk : ℤ) (pts : ℚ) : List (ℤ × WeekAgg) → List (ℤ × WeekAgg)
  | [] => [(wk, ⟨wk, 1, pts⟩)]
  | (k, v) :: rest =>
    if k = wk then
      (k, ⟨v.weekStart, v.issuesCompleted + 1, v.pointsCompleted + pts⟩) :: rest
    else (k, v) :: bumpWeek wk pts rest

/-- The filter of `computeThroughput`: status category `Done`, non-null
resolution date, and resolved within the 12-week (84-day) lookback window. -/
def resolvedFilter (now : ℤ) (i : AggIssue) : Bool :=
  decide (i.statusCategory = "Done") &&
    match i.resolved with
    | none => false
    | some d => decide (now - 84 ≤ d)

/-- The fold of resolved issues into the insertion-ordered weekly map. -/
def weeklyMapOf (issues : List AggIssue) (now : ℤ) : List (ℤ × WeekAgg) :=
  (issues.filter (resolvedFilter now)).foldl
    (fun m i => bumpWeek (getWeekStart (i.resolved.getD 0)) (i.storyPoints.getD 0) m) []

/-- Relation `a.weekStart.localeCompare(b.weekStart) ≤ 0` — the sort relation of
`computeThroughput` (ISO date strings compare like their day numbers). -/
def wkLE (a b : WeekAgg) : Prop := a.weekStart ≤ b.weekStart

instance : DecidableRel wkLE := fun a b => inferInstanceAs (Decidable (a.weekStart ≤ b.weekStart))

instance : IsTotal WeekAgg wkLE := ⟨fun a b => Int.le_total a.weekStart b.weekStart⟩

instance : IsTrans WeekAgg wkLE := ⟨fun _ _ _ h1 h2 => le_trans h1 h2⟩

/-- The throughput object returned by `computeThroughput`. -/
structure Throughput where
  weeklyData : List WeekAgg
  issuesPerWeek : List ℚ
  pointsPerWeek : List ℚ
  avgIssuesPerWeek : ℚ
  avgPointsPerWeek : ℚ
  weeksAnalyzed : ℕ

/-- Function `computeThroughput(issues)` with the ambient `new Date()` passed as
`now`: group the in-window resolved issues by week start, sort the weeks
ascending, and derive the per-week series and averages. -/
def computeThroughput (issues : List AggIssue) (now : ℤ) : Throughput :=
  let weeklyData := ((weeklyMapOf issues now).map Prod.snd).insertionSort wkLE
  let issuesPerWeek := weeklyData.map (fun w => w.issuesCompleted)
  let pointsPerWeek := weeklyData.map (fun w => w.pointsCompleted)
  ⟨weeklyData, issuesPerWeek, pointsPerWeek,
   if 0 < issuesPerWeek.length then issuesPerWeek.sum / issuesPerWeek.length else 0,
   if 0 < pointsPerWeek.length then pointsPerWeek.sum / pointsPerWeek.length else 0,
   weeklyData.length⟩

/-- The normalisation `computeBaseline.js` applies to each aggregated week
(`weeklyData.map(w => ({points_completed: w.pointsCompleted || 0, …}))`). -/
def toWeek (w : WeekAgg) : ComputeBaseline.Week :=
  ⟨w.pointsCompleted, w.issuesCompleted⟩

end FetchAndAggregate

namespace FetchAndAggregate

/-- C6: for every date, `getWeekStart` returns the Monday of its calendar
week: a Sunday (weekday 0) rolls back exactly 6 days to the *preceding*
Monday, any other weekday rolls back `weekday − 1` days; the result is always
a Monday (weekday 1) and lies within the 6 days up to and including the input
date (never after it). -/
theorem getWeekStart_monday (n : ℤ) :
    getWeekStart n = n - (if getDay n = 0 then 6 else getDay n - 1) ∧
    getDay (getWeekStart n) = 1 ∧
    getWeekStart n ≤ n ∧ n < getWeekStart n + 7 := by
  unfold getWeekStart getDay
  by_cases h0 : (n + 4) % 7 = 0 <;> simp only [h0, if_pos, if_neg, reduceIte] <;> omega

/-- Every entry of the weekly map has its key equal to its value's
`weekStart` and an issue count of at least 1. -/
def goodEntry (e : ℤ × WeekAgg) : Prop :=
  e.1 = e.2.weekStart ∧ 1 ≤ e.2.issuesCompleted

theorem bumpWeek_goodEntry (wk : ℤ) (pts : ℚ) :
    ∀ (m : List (ℤ × WeekAgg)), (∀ e ∈ m, goodEntry e) →
    ∀ e ∈ bumpWeek wk pts m, goodEntry e := by
  intro m
  induction m with
  | nil =>
    intro _ e he
    simp only [bumpWeek, List.mem_singleton] at he
    subst he
    exact ⟨rfl, le_refl 1⟩
  | cons hd tl ih =>
    intro hm e he
    obtain ⟨k, v⟩ := hd
    by_cases hk : k = wk
    · simp only [bumpWeek, if_pos hk] at he
      rcases List.mem_cons.1 he with rfl | htl
      · obtain ⟨h1, h2⟩ := hm (k, v) (List.mem_cons_self _ _)
        simp only [goodEntry] at h1 h2 ⊢
        exact ⟨h1, by linarith⟩
      · exact hm _ (List.mem_cons_of_mem _ htl)
    · simp only [bumpWeek, if_neg hk] at he
      rcases List.mem_cons.1 he with rfl | htl
      · exact hm _ (List.mem_cons_self _ _)
      · exact ih (fun x hx => hm x (List.mem_cons_of_mem _ hx)) e htl

theorem mem_keys_bumpWeek (wk a : ℤ) (pts : ℚ) :
    ∀ (m : List (ℤ × WeekAgg)),
    (a ∈ (bumpWeek wk pts m).map Prod.fst ↔ a ∈ m.map Prod.fst ∨ a = wk) := by
  intro m
  induction m with
  | nil => simp [bumpWeek]
  | cons hd tl ih =>
    obtain ⟨k, v⟩ := hd
    by_cases hk : k = wk
    · subst hk
      rw [show bumpWeek k pts ((k, v) :: tl) =
          (k, ⟨v.weekStart, v.issuesCompleted + 1, v.pointsCompleted + pts⟩) :: tl
          from by simp [bumpWeek]]
      simp only [List.map_cons, List.mem_cons]
      tauto
    · simp only [bumpWeek, if_neg hk, List.map_cons, List.mem_cons, ih]
      tauto

theorem nodup_keys_bumpWeek (wk : ℤ) (pts : ℚ) :
    ∀ (m : List (ℤ × WeekAgg)), (m.map Prod.fst).Nodup →
    ((bumpWeek wk pts m).map Prod.fst).Nodup := by
  intro m
  induction m with
  | nil => simp [bumpWeek]
  | cons hd tl ih =>
    obtain ⟨k, v⟩ := hd
    intro hnd
    simp only [List.map_cons, List.nodup_cons] at hnd
    by_cases hk : k = wk
    · simp only [bumpWeek, if_pos hk, List.map_cons, List.nodup_cons]
      exact hnd
    · simp only [bumpWeek, if_neg hk, List.map_cons, List.nodup_cons]
      refine ⟨fun hmem => ?_, ih hnd.2⟩
      rcases (mem_keys_bumpWeek wk k pts tl).1 hmem with h | h
      · exact hnd.1 h
      · exact hk h

/-- The weekly-map fold step used by `weeklyMapOf`. -/
def bumpStep (m : List (ℤ × WeekAgg)) (i : AggIssue) : List (ℤ × WeekAgg) :=
  bumpWeek (getWeekStart (i.resolved.getD 0)) (i.storyPoints.getD 0) m

theorem foldl_bump_goodEntry (l : List AggIssue) :
    ∀ (m : List (ℤ × WeekAgg)), (∀ e ∈ m, goodEntry e) →
    ∀ e ∈ l.foldl bumpStep m, goodEntry e := by
  induction l with
  | nil => intro m hm; simpa using hm
  | cons i tl ih =>
    intro m hm
    exact ih _ (bumpWeek_goodEntry _ _ m hm)

theorem foldl_bump_nodup (l : List AggIssue) :
    ∀ (m : List (ℤ × WeekAgg)), (m.map Prod.fst).Nodup →
    ((l.foldl bumpStep m).map Prod.fst).Nodup := by
  induction l with
  | nil => intro m hm; simpa using hm
  | cons i tl ih =>
    intro m hm
    exact ih _ (nodup_keys_bumpWeek _ _ m hm)

theorem weeklyMapOf_goodEntry (issues : List AggIssue) (now : ℤ) :
    ∀ e ∈ weeklyMapOf issues now, goodEntry e := by
  unfold weeklyMapOf
  exact foldl_bump_goodEntry _ [] (by simp)

theorem weeklyMapOf_nodup_keys (issues : List AggIssue) (now : ℤ) :
    ((weeklyMapOf issues now).map Prod.fst).Nodup := by
  unfold weeklyMapOf
  exact foldl_bump_nodup _ [] (by simp)

theorem map_weekStart_eq_keys (m : List (ℤ × WeekAgg))
    (hm : ∀ e ∈ m, goodEntry e) :
    (m.map Prod.snd).map (fun w => w.weekStart) = m.map Prod.fst := by
  induction m with
  | nil => rfl
  | cons hd tl ih =>
    simp only [List.map_cons, List.cons.injEq]
    constructor
    · exact ((hm hd (List.mem_cons_self _ _)).1).symm
    · exact ih fun e he => hm e (List.mem_cons_of_mem _ he)

/-- C10 (amended): every weekly series produced by the aggregator has
strictly increasing week-start keys — one sample per distinct week, sorted
ascending — and every sample records at least one completed issue (a week
with zero completions is never emitted). -/
theorem computeThroughput_weeklyData_invariants (issues : List AggIssue) (now : ℤ) :
    (((computeThroughput issues now).weeklyData.map fun w => w.weekStart).Sorted (· < ·)) ∧
    ∀ w ∈ (computeThroughput issues now).weeklyData, 1 ≤ w.issuesCompleted := by
  have hgood := weeklyMapOf_goodEntry issues now
  have hkeys := weeklyMapOf_nodup_keys issues now
  have hdata : (computeThroughput issues now).weeklyData =
      ((weeklyMapOf issues now).map Prod.snd).insertionSort wkLE := rfl
  have hperm : List.Perm (((weeklyMapOf issues now).map Prod.snd).insertionSort wkLE)
      ((weeklyMapOf issues now).map Prod.snd) :=
    List.perm_insertionSort wkLE _
  have hsorted : (((weeklyMapOf issues now).map Prod.snd).insertionSort wkLE).Sorted wkLE :=
    List.sorted_insertionSort wkLE _
  have hmaple : ((((weeklyMapOf issues now).map Prod.snd).insertionSort wkLE).map
      fun w => w.weekStart).Sorted (· ≤ ·) := by
    exact List.pairwise_map.mpr hsorted
  have hnodup : ((((weeklyMapOf issues now).map Prod.snd).insertionSort wkLE).map
      fun w => w.weekStart).Nodup := by
    have h1 : List.Perm
        ((((weeklyMapOf issues now).map Prod.snd).insertionSort wkLE).map fun w => w.weekStart)
        (((weeklyMapOf issues now).map Prod.snd).map fun w => w.weekStart) :=
      hperm.map _
    rw [h1.nodup_iff, map_weekStart_eq_keys _ hgood]
    exact hkeys
  constructor
  · rw [hdata]
    exact hmaple.lt_of_le hnodup
  · intro w hw
    rw [hdata] at hw
    have hw2 : w ∈ (weeklyMapOf issues now).map Prod.snd := hperm.mem_iff.1 hw
    obtain ⟨e, he, rfl⟩ := List.mem_map.1 hw2
    exact (hgood e he).2

/-- C10 (counterexample to the nonzero-draw consequence): a single `Done`
issue with no story points, resolved on day 3 (a Sunday) with `now = 3`,
produces the weekly series `[⟨−3, 1, 0⟩]` — nonzero issue activity but zero
points.  Fed to the simulator in points mode (the normalised sample is
`{points_completed := 0, issues_completed := 1}`), the drawn throughput value
is 0 and a trial with positive workload 5 saturates at the 104-week cap. -/
theorem computeThroughput_zero_point_draw :
    (computeThroughput [⟨"Done", some 3, none⟩] 3).weeklyData.map toWeek = [⟨0, 1⟩] ∧
    ComputeBaseline.weekValue false ⟨0, 1⟩ = 0 ∧
    (ComputeBaseline.trialLoop (fun _ => 0) [⟨0, 1⟩] false
      ComputeBaseline.maxWeeks 0 5 0).1 = 104 := by
  refine ⟨by decide, by decide, by decide⟩

end FetchAndAggregate

namespace FetchAndAggregate

/-- A completed, estimated issue as consumed by `computeEstimationAccuracy`
after its filter (status `Done`, resolved within the window, positive story
points, both timestamps present): story points and the two timestamps in
milliseconds. -/
structure EstItem where
  storyPoints : ℚ
  created : ℚ
  resolved : ℚ
deriving DecidableEq

/-- Raw cycle time `(resolved - created) / (1000 * 60 * 60 * 24)`, in days. -/
def cycleTimeDays (i : EstItem) : ℚ := (i.resolved - i.created) / 86400000

/-- One row of `issueMetrics` (the identifying fields are omitted; the
numeric fields are rounded to one decimal as in the source). -/
structure IssueMetric where
  storyPoints : ℚ
  cycleTimeDays : ℚ
  daysPerPoint : ℚ
deriving DecidableEq

/-- The per-issue metric computation of `computeEstimationAccuracy`. -/
def mkMetric (i : EstItem) : IssueMetric :=
  ⟨i.storyPoints, round1 (cycleTimeDays i), round1 (cycleTimeDays i / i.storyPoints)⟩

/-- The `byPointValue` update: JS `Map` keyed by story-point value, pushing each
metric to the end of its group's array. -/
def pushGroup (k : ℚ) (m : IssueMetric) :
    List (ℚ × List IssueMetric) → List (ℚ × List IssueMetric)
  | [] => [(k, [m])]
  | (k2, ms) :: rest =>
    if k2 = k then (k2, ms ++ [m]) :: rest else (k2, ms) :: pushGroup k m rest

/-- One entry of `pointValueStats`.  The source also computes min/max cycle
time and a coefficient-of-variation field (which needs a square root and is
consumed only by the recommendation generator, not by bias detection); those
fields are omitted here. -/
structure PVStat where
  storyPoints : ℚ
  count : ℕ
  avgCycleTimeDays : ℚ
  avgDaysPerPoint : ℚ
deriving DecidableEq

/-- Group statistics: average cycle time and days-per-point, rounded to one
decimal place as in the source. -/
def mkStat (k : ℚ) (ms : List IssueMetric) : PVStat :=
  ⟨k, ms.length,
   round1 ((ms.map fun m => m.cycleTimeDays).sum / (ms.length : ℚ)),
   round1 ((ms.map fun m => m.daysPerPoint).sum / (ms.length : ℚ))⟩

/-- Comparator `(a, b) => a.storyPoints - b.storyPoints` — ascending sort by points. -/
def pvLE (a b : PVStat) : Prop := a.storyPoints ≤ b.storyPoints

instance : DecidableRel pvLE := fun a b =>
  inferInstanceAs (Decidable (a.storyPoints ≤ b.storyPoints))

instance : IsTotal PVStat pvLE := ⟨fun a b => le_total a.storyPoints b.storyPoints⟩

instance : IsTrans PVStat pvLE := ⟨fun _ _ _ h1 h2 => le_trans h1 h2⟩

/-- The bias classification labels of `detectEstimationBias`. -/
inductive BiasType
  | severe_overestimation
  | moderate_overestimation
  | well_calibrated
  | moderate_underestimation
  | severe_underestimation
deriving DecidableEq

/-- The return object of `detectEstimationBias`: the insufficient-data branch
carries no score. -/
inductive BiasResult
  | insufficient (message : String)
  | classified (biasType : BiasType) (score : ℤ) (message : String)
deriving DecidableEq

/-- The adjacent pairs `(sortedByPoints[i], sortedByPoints[i+1])` of the bias
loop. -/
def biasPairs (pointValueStats : List PVStat) : List (PVStat × PVStat) :=
  (pointValueStats.insertionSort pvLE).zip (pointValueStats.insertionSort pvLE).tail

/-- Per-pair accuracy:
`(higher.avgCycleTimeDays / lower.avgCycleTimeDays) / (higher.storyPoints / lower.storyPoints)`. -/
def pairAccuracy (p : PVStat × PVStat) : ℚ :=
  (p.2.avgCycleTimeDays / p.1.avgCycleTimeDays) / (p.2.storyPoints / p.1.storyPoints)

/-- Average `linearityScore / comparisons` with the `comparisons > 0` guard (the
accumulation loop is expressed as a map-sum over the adjacent pairs). -/
def avgLinearity (pointValueStats : List PVStat) : ℚ :=
  if 0 < (biasPairs pointValueStats).length then
    ((biasPairs pointValueStats).map pairAccuracy).sum / ((biasPairs pointValueStats).length : ℚ)
  else 1

/-- Function `detectEstimationBias(pointValueStats)`: classify the average linearity
into the five bias bands and report `Math.round(avgLinearity * 100)`. -/
def detectEstimationBias (pointValueStats : List PVStat) : BiasResult :=
  if pointValueStats.length < 2 then
    .insufficient "Need multiple point values to detect bias"
  else
    if avgLinearity pointValueStats < 1/2 then
      .classified .severe_overestimation (jround (avgLinearity pointValueStats * 100))
        "Larger estimates take much less time than expected. Consider using smaller point values."
    else if avgLinearity pointValueStats < 4/5 then
      .classified .moderate_overestimation (jround (avgLinearity pointValueStats * 100))
        "Larger stories are being overestimated relative to smaller ones."
    else if 3/2 < avgLinearity pointValueStats then
      .classified .severe_underestimation (jround (avgLinearity pointValueStats * 100))
        "Larger estimates take much more time than expected. Stories may need to be broken down more."
    else if 6/5 < avgLinearity pointValueStats then
      .classified .moderate_underestimation (jround (avgLinearity pointValueStats * 100))
        "Larger stories are being underestimated relative to smaller ones."
    else
      .classified .well_calibrated (jround (avgLinearity pointValueStats * 100))
        "Story point estimates correlate well with actual effort."

/-- The analyzer result: either the explicit insufficient marker (fewer than
3 qualifying issues) or the profile (recommendations and the per-issue sample
list are omitted). -/
inductive EstAccResult
  | insufficient (sampleSize : ℕ)
  | profile (sampleSize : ℕ) (overallAvgDaysPerPoint : ℚ) (byPointValue : List PVStat)
      (estimationBias : BiasResult)
deriving DecidableEq

/-- The core of `computeEstimationAccuracy` on the already-filtered
`completedWithEstimates` list: per-issue metrics, grouping by story-point
value in insertion order, per-group statistics sorted by points ascending,
and bias detection. -/
def computeEstimationAccuracy (completedWithEstimates : List EstItem) : EstAccResult :=
  if completedWithEstimates.length < 3 then
    .insufficient completedWithEstimates.length
  else
    let issueMetrics := completedWithEstimates.map mkMetric
    let byPointValue := issueMetrics.foldl (fun g m => pushGroup m.storyPoints m g) []
    let pointValueStats := (byPointValue.map fun p => mkStat p.1 p.2).insertionSort pvLE
    let allDaysPerPoint := issueMetrics.map fun m => m.daysPerPoint
    .profile completedWithEstimates.length
      (round1 (allDaysPerPoint.sum / (allDaysPerPoint.length : ℚ)))
      pointValueStats
      (detectEstimationBias pointValueStats)

/-- The `estimationBias` field of an analyzer profile. -/
def biasOf : EstAccResult → Option BiasResult
  | .profile _ _ _ b => some b
  | _ => none

end FetchAndAggregate

namespace FetchAndAggregate

theorem sum_map_ones {α : Type} (l : List α) (f : α → ℚ) (h : ∀ x ∈ l, f x = 1) :
    (l.map f).sum = (l.length : ℚ) := by
  induction l with
  | nil => simp
  | cons hd tl ih =>
    simp only [List.map_cons, List.sum_cons, List.length_cons]
    rw [h hd (List.mem_cons_self _ _), ih fun x hx => h x (List.mem_cons_of_mem _ hx)]
    push_cast
    ring

theorem avgLinearity_proportional (stats : List PVStat) (k : ℚ) (hk : 0 < k)
    (hlen : 2 ≤ stats.length)
    (hpos : ∀ s ∈ stats, 0 < s.storyPoints)
    (hprop : ∀ s ∈ stats, s.avgCycleTimeDays = k * s.storyPoints) :
    avgLinearity stats = 1 := by
  have hmem : ∀ s ∈ stats.insertionSort pvLE,
      0 < s.storyPoints ∧ s.avgCycleTimeDays = k * s.storyPoints := by
    intro s hsm
    have hs : s ∈ stats := (List.perm_insertionSort pvLE stats).mem_iff.1 hsm
    exact ⟨hpos s hs, hprop s hs⟩
  have hpair : ∀ p ∈ biasPairs stats, pairAccuracy p = 1 := by
    intro p hp
    obtain ⟨h1, h2⟩ := List.of_mem_zip hp
    obtain ⟨hp1, he1⟩ := hmem p.1 h1
    obtain ⟨hp2, he2⟩ := hmem p.2 (List.mem_of_mem_tail h2)
    have hk0 : k ≠ 0 := ne_of_gt hk
    have h10 : p.1.storyPoints ≠ 0 := ne_of_gt hp1
    have h20 : p.2.storyPoints ≠ 0 := ne_of_gt hp2
    rw [pairAccuracy, he1, he2]
    field_simp
    ring
  have hcomp : 0 < (biasPairs stats).length := by
    have hlt : (stats.insertionSort pvLE).length = stats.length :=
      (List.perm_insertionSort pvLE stats).length_eq
    rw [biasPairs, List.length_zip, hlt, List.length_tail, hlt]
    omega
  have hc0 : ((biasPairs stats).length : ℚ) ≠ 0 := by
    exact_mod_cast Nat.pos_iff_ne_zero.1 hcomp
  rw [avgLinearity, if_pos hcomp, sum_map_ones _ _ hpair, div_self hc0]

/-- C7 (amended): bias detection averages the per-adjacent-pair accuracy
(actual cycle-time ratio over size ratio) over the distinct size values
sorted ascending, reports `round(linearity × 100)` and classifies by the
stated thresholds; in particular, whenever the analyzer's *rounded* per-size
mean cycle times are exactly proportional to the size values (with a positive
factor) and at least two distinct sizes are present, it reports
`well_calibrated` with score exactly 100.  (On raw-proportional datasets the
one-decimal rounding applied before bias detection can break the
proportionality — see the counterexample.) -/
theorem detectEstimationBias_proportional (stats : List PVStat) (k : ℚ) (hk : 0 < k)
    (hlen : 2 ≤ stats.length)
    (hpos : ∀ s ∈ stats, 0 < s.storyPoints)
    (hprop : ∀ s ∈ stats, s.avgCycleTimeDays = k * s.storyPoints) :
    detectEstimationBias stats = .classified .well_calibrated 100
      "Story point estimates correlate well with actual effort." := by
  have havg := avgLinearity_proportional stats k hk hlen hpos hprop
  have hnot : ¬stats.length < 2 := by omega
  rw [detectEstimationBias, if_neg hnot, havg]
  norm_num [jround]
  decide

/-- Witness for C7 (amended): two size groups (1 pt → 5 days, 2 pt → 10
days), proportionality factor 5. -/
theorem detectEstimationBias_proportional_witness :
    detectEstimationBias [⟨1, 1, 5, 5⟩, ⟨2, 1, 10, 5⟩] = .classified .well_calibrated 100
      "Story point estimates correlate well with actual effort." :=
  detectEstimationBias_proportional [⟨1, 1, 5, 5⟩, ⟨2, 1, 10, 5⟩] 5 (by norm_num)
    (by decide) (by decide) (by decide)

/-- C7 (counterexample): three completed issues whose *raw* mean cycle times
are exactly proportional to their sizes (size 1 → 0.05 days, size 3 → 0.15
days), yet the analyzer classifies `moderate_overestimation` with score 67,
not `well_calibrated` with score 100: the one-decimal rounding of cycle times
(0.05 → 0.1, 0.15 → 0.2) destroys the proportionality before the ratios are
compared. -/
theorem detectEstimationBias_rounding_counterexample :
    cycleTimeDays ⟨3, 0, 12960000⟩ =
      3 * ((cycleTimeDays ⟨1, 0, 4320000⟩ + cycleTimeDays ⟨1, 0, 4320000⟩) / 2) ∧
    biasOf (computeEstimationAccuracy [⟨1, 0, 4320000⟩, ⟨1, 0, 4320000⟩, ⟨3, 0, 12960000⟩]) =
      some (.classified .moderate_overestimation 67
        "Larger stories are being overestimated relative to smaller ones.") := by
  constructor
  · norm_num [cycleTimeDays]
  · decide

end FetchAndAggregate

namespace ComputeConfidence

/-- The recommended baseline percentile of `determineRecommendation`. -/
inductive Percentile
  | P50
  | P80
  | P95
  | CUSTOM
deriving DecidableEq

/-- The recommendation object (the `percentiles` echo of the simulation
results is omitted; `breakdown` is inlined as the two score fields). -/
structure Recommendation where
  percentile : Percentile
  confidenceScore : ℤ
  rationale : String
  velocityStabilityScore : ℚ
  estimationAccuracyScore : ℚ
deriving DecidableEq

/-- Function `determineRecommendation(velocityStability, estimationConfidence, …)` of
`computeConfidence.js`, as a function of the two sub-scores (the `|| 0`
guards are the identity on numbers): average the sub-scores and map the
combined score to a percentile recommendation. -/
def determineRecommendation (velocityScore estimationScore : ℚ) : Recommendation :=
  let combinedScore := (velocityScore + estimationScore) / 2
  if 80 ≤ combinedScore then
    ⟨.P50, jround combinedScore,
     "High confidence in estimates. Team velocity is stable and estimates are well-calibrated. Use P50 as your baseline commitment.",
     velocityScore, estimationScore⟩
  else if 60 ≤ combinedScore then
    ⟨.P80, jround combinedScore,
     "Moderate confidence. Velocity is fairly consistent and estimates are reasonable. P80 provides realistic buffer for execution risks.",
     velocityScore, estimationScore⟩
  else if 40 ≤ combinedScore then
    ⟨.P95, jround combinedScore,
     "Lower confidence due to velocity volatility or estimation issues. Use P95 for safer planning and stakeholder commitments.",
     velocityScore, estimationScore⟩
  else
    ⟨.CUSTOM, jround combinedScore,
     "Insufficient confidence in baseline forecasts. Recommend improving estimation practices and collecting more velocity data before committing.",
     velocityScore, estimationScore⟩

/-- Function `calculateOverallConfidence`: `Math.min(95, Math.max(20, Math.round(base)))`
where `base` is the average of the two sub-scores. -/
def calculateOverallConfidence (velocityScore estimationScore : ℚ) : ℤ :=
  min 95 (max 20 (jround ((velocityScore + estimationScore) / 2)))

/-- C8: for every pair of sub-scores the combined score is their arithmetic
mean — the reported `confidenceScore` is the rounded mean; the recommended
percentile is P50 when the mean is ≥ 80, P80 when ≥ 60, P95 when ≥ 40 and
CUSTOM otherwise; and the overall confidence is the rounded mean clamped to
[20, 95]. -/
theorem confidence_combination_spec (vs es : ℚ) :
    (determineRecommendation vs es).confidenceScore = jround ((vs + es) / 2) ∧
    (determineRecommendation vs es).percentile =
      (if 80 ≤ (vs + es) / 2 then Percentile.P50
       else if 60 ≤ (vs + es) / 2 then Percentile.P80
       else if 40 ≤ (vs + es) / 2 then Percentile.P95
       else Percentile.CUSTOM) ∧
    (determineRecommendation vs es).velocityStabilityScore = vs ∧
    (determineRecommendation vs es).estimationAccuracyScore = es ∧
    calculateOverallConfidence vs es = min 95 (max 20 (jround ((vs + es) / 2))) ∧
    20 ≤ calculateOverallConfidence vs es ∧
    calculateOverallConfidence vs es ≤ 95 := by
  refine ⟨?_, ?_, ?_, ?_, rfl, ?_, ?_⟩
  · dsimp only [determineRecommendation]
    split_ifs <;> rfl
  · dsimp only [determineRecommendation]
    split_ifs <;> rfl
  · dsimp only [determineRecommendation]
    split_ifs <;> rfl
  · dsimp only [determineRecommendation]
    split_ifs <;> rfl
  · unfold calculateOverallConfidence
    exact le_min (by norm_num) (le_max_left _ _)
  · unfold calculateOverallConfidence
    exact min_le_left _ _

end ComputeConfidence
